import Mathlib

/-!
Shallow embedding of the REST API demo server (two near-duplicate
implementations: an array-based `server.js` and a Map/circular-buffer
variant).  The in-memory entity store (Users, Todos), the request-metrics
aggregator (per-route stats, recent-request buffer) and the API-key guard
are translated into pure Lean functions; the mutable module-level state
becomes explicit state passing.  JS falsiness on payload fields is modelled
explicitly (`Option String` for string fields, a small `JsVal` type where
arbitrary JSON values can arrive, e.g. the `completed` field which the code
coerces with `!!`).
-/

/-- A stored User: `{ id, name, email }`. -/
structure User where
  id : String
  name : String
  email : String
deriving DecidableEq, Repr

/-- A stored Todo: `{ id, userId, title, completed }`.  The code only ever
stores a strict boolean in `completed` (it writes `!!completed`). -/
structure Todo where
  id : String
  userId : String
  title : String
  completed : Bool
deriving DecidableEq, Repr

/-- The mutable module-level entity state: the id counter `nextId` and the
two collections.  Both implementations keep insertion order (array /
insertion-ordered Map), modelled as lists. -/
structure Store where
  nextId : Nat
  users : List User
  todos : List Todo
deriving DecidableEq, Repr

/-- A JSON value as it may arrive in a request body field that the code
does not assume to be a string (used for `completed`, which is coerced with
`!!`).  Numbers are modelled as rationals (NaN is not modelled). -/
inductive JsVal where
  | null
  | bool (b : Bool)
  | num (q : ℚ)
  | str (s : String)
  | obj
deriving DecidableEq, Repr

/-- JS truthiness (`!!v`): null, false, 0 and "" are falsy; objects and
arrays are truthy. -/
def jsTruthy : JsVal → Bool
  | .null => false
  | .bool b => b
  | .num q => decide (q ≠ 0)
  | .str s => decide (s ≠ "")
  | .obj => true

/-- A handler response: either a JSON payload with a status code or an
error object `{ error: msg }` with a status code. -/
inductive Resp (α : Type) where
  | ok (status : Nat) (val : α)
  | err (status : Nat) (msg : String)
deriving DecidableEq, Repr

/-- `makeId`: `String(nextId++)` — the id handed out at counter value `n`. -/
def makeId (n : Nat) : String := toString n

/-- The seed data: Alice (id "1"), Bob (id "2") and three todos
(ids "3","4","5"); the counter is left at 6. -/
def seedStore : Store :=
  { nextId := 6,
    users := [⟨"1", "Alice", "alice@example.com"⟩,
              ⟨"2", "Bob", "bob@example.com"⟩],
    todos := [⟨"3", "1", "Buy coffee", false⟩,
              ⟨"4", "1", "Edit wedding photos", true⟩,
              ⟨"5", "2", "Prepare client proposal", false⟩] }

/-- JS falsiness of an optional string body field: `!x` is true when the
field is absent (undefined) or the empty string. -/
def strFalsy (o : Option String) : Bool := o.getD "" = ""

/-- POST /api/users: `if (!name || !email) 400; users.push({id, name, email})`. -/
def createUser (s : Store) (name email : Option String) : Resp User × Store :=
  if strFalsy name || strFalsy email then
    (.err 400 "name and email are required", s)
  else
    let user : User := ⟨makeId s.nextId, name.getD "", email.getD ""⟩
    (.ok 201 user, { s with nextId := s.nextId + 1, users := s.users ++ [user] })

/-- GET /api/users/:id: `users.find(u => u.id === id)`. -/
def getUser (s : Store) (id : String) : Resp User :=
  match s.users.find? (fun u => u.id == id) with
  | none => .err 404 "user not found"
  | some u => .ok 200 u

/-- Replace the first user whose id matches (the JS code mutates the found
object in place, leaving its position in the collection unchanged). -/
def updateFirstUser (id : String) (f : User → User) : List User → List User
  | [] => []
  | u :: rest => if u.id == id then f u :: rest else u :: updateFirstUser id f rest

/-- Replace the first todo whose id matches. -/
def updateFirstTodo (id : String) (t2 : Todo) : List Todo → List Todo
  | [] => []
  | t :: rest => if t.id == id then t2 :: rest else t :: updateFirstTodo id t2 rest

/-- PATCH /api/users/:id: 404 if absent; then
`if (name !== undefined) user.name = name; if (email !== undefined) user.email = email`
(present-vs-absent semantics: an explicit empty string is applied). -/
def updateUser (s : Store) (id : String) (name email : Option String) :
    Resp User × Store :=
  match s.users.find? (fun u => u.id == id) with
  | none => (.err 404 "user not found", s)
  | some u =>
    let u2 : User := { u with name := name.getD u.name, email := email.getD u.email }
    (.ok 200 u2,
     { s with users := (updateFirstUser id
         (fun v => { v with name := name.getD v.name, email := email.getD v.email })
         s.users) })

/-- DELETE /api/users/:id: 404 if absent; otherwise remove the user and
cascade-delete every todo whose `userId` equals the removed user's id. -/
def deleteUser (s : Store) (id : String) : Resp Unit × Store :=
  match s.users.find? (fun u => u.id == id) with
  | none => (.err 404 "user not found", s)
  | some removed =>
    (.ok 200 (),
     { s with users := s.users.eraseP (fun u => u.id == id),
              todos := s.todos.filter (fun t => t.userId != removed.id) })

/-- GET /api/todos with query parameters `userId` and `completed` (raw
query strings).  `if (userId)` — the filter applies only when `userId` is
provided and non-empty; `completed` filters only for the literal strings
"true" / "false". -/
def listTodos (s : Store) (userId : Option String) (completed : Option String) :
    List Todo :=
  let l := s.todos
  let l := if strFalsy userId then l else l.filter (fun t => t.userId == userId.getD "")
  match completed with
  | some c =>
    if c == "true" then l.filter (fun t => t.completed == true)
    else if c == "false" then l.filter (fun t => t.completed == false)
    else l
  | none => l

/-- POST /api/todos: `if (!userId || !title) 400 "userId and title are required";
if (!users.find(id === userId)) 400 "invalid userId"; push {id, userId, title,
completed: !!completed}` (destructuring default `completed = false`). -/
def createTodo (s : Store) (userId title : Option String) (completed : Option JsVal) :
    Resp Todo × Store :=
  if strFalsy userId || strFalsy title then
    (.err 400 "userId and title are required", s)
  else if (s.users.find? (fun u => u.id == userId.getD "")).isNone then
    (.err 400 "invalid userId", s)
  else
    let todo : Todo := ⟨makeId s.nextId, userId.getD "", title.getD "",
                        jsTruthy (completed.getD (.bool false))⟩
    (.ok 201 todo, { s with nextId := s.nextId + 1, todos := s.todos ++ [todo] })

/-- GET /api/todos/:id. -/
def getTodo (s : Store) (id : String) : Resp Todo :=
  match s.todos.find? (fun t => t.id == id) with
  | none => .err 404 "todo not found"
  | some t => .ok 200 t

/-- PATCH /api/todos/:id.  Faithful to the handler's statement order: the
found todo is mutated in place — `title` and `completed` are applied FIRST,
and only then is a provided `userId` validated; if the userId is invalid the
handler returns 400 "invalid userId" but the title/completed mutations have
already happened and persist in the store. -/
def updateTodo (s : Store) (id : String) (title : Option String)
    (completed : Option JsVal) (userId : Option String) : Resp Todo × Store :=
  match s.todos.find? (fun t => t.id == id) with
  | none => (.err 404 "todo not found", s)
  | some t =>
    let t2 : Todo := { t with
      title := title.getD t.title,
      completed := match completed with
                   | none => t.completed
                   | some v => jsTruthy v }
    match userId with
    | none => (.ok 200 t2, { s with todos := updateFirstTodo id t2 s.todos })
    | some uid =>
      if (s.users.find? (fun u => u.id == uid)).isNone then
        (.err 400 "invalid userId", { s with todos := updateFirstTodo id t2 s.todos })
      else
        let t3 : Todo := { t2 with userId := uid }
        (.ok 200 t3, { s with todos := updateFirstTodo id t3 s.todos })

/-- DELETE /api/todos/:id. -/
def deleteTodo (s : Store) (id : String) : Resp Unit × Store :=
  match s.todos.find? (fun t => t.id == id) with
  | none => (.err 404 "todo not found", s)
  | some _ => (.ok 200 (), { s with todos := s.todos.eraseP (fun t => t.id == id) })

/-- One mutating store operation (the POST/PATCH/DELETE handlers). -/
inductive StoreOp where
  | createUser (name email : Option String)
  | updateUser (id : String) (name email : Option String)
  | deleteUser (id : String)
  | createTodo (userId title : Option String) (completed : Option JsVal)
  | updateTodo (id : String) (title : Option String) (completed : Option JsVal)
      (userId : Option String)
  | deleteTodo (id : String)

/-- The store state after one operation (the handler's response is
discarded; on error the handler still leaves a — possibly mutated — store). -/
def applyOp (s : Store) : StoreOp → Store
  | .createUser n e => (createUser s n e).2
  | .updateUser i n e => (updateUser s i n e).2
  | .deleteUser i => (deleteUser s i).2
  | .createTodo u t c => (createTodo s u t c).2
  | .updateTodo i t c u => (updateTodo s i t c u).2
  | .deleteTodo i => (deleteTodo s i).2

/-- The store state after a sequence of operations. -/
def runOps (s : Store) (ops : List StoreOp) : Store := ops.foldl applyOp s

/-- Referential integrity: every stored Todo's `userId` is the id of some
stored User. -/
def refIntegrity (s : Store) : Prop :=
  ∀ t ∈ s.todos, ∃ u ∈ s.users, u.id = t.userId

instance (s : Store) : Decidable (refIntegrity s) := by
  unfold refIntegrity; infer_instance

/-! ## Metrics: recent-request stores -/

/-- One recorded request: `{ ts, method, path, status, ms }` with `ms`
already rounded to an integer (`Math.round`). -/
structure RecentRec where
  ts : String
  method : String
  path : String
  status : Nat
  ms : Int
deriving DecidableEq, Repr, Inhabited

/-- `RECENT_SIZE`: capacity of the recent-request store. -/
def RECENT_SIZE : Nat := 100

/-- The array implementation's record step:
`recent.push(r); if (recent.length > 100) recent.shift()`. -/
def pushRecent (recent : List α) (r : α) : List α :=
  let l := recent ++ [r]
  if RECENT_SIZE < l.length then l.tail else l

/-- The last `n` elements of a list (JS `slice(-n)`: the whole list when it
is shorter than `n`). -/
def lastN (n : Nat) (l : List α) : List α := l.drop (l.length - n)

/-- The array implementation's snapshot read-out:
`metrics.recent.slice(-20).reverse()`. -/
def arrRecentSnapshot (recent : List α) : List α := (lastN 20 recent).reverse

/-- The circular-buffer implementation's state: `new Array(RECENT_SIZE)`
(holes are `none`), a write index and a count.  The backing array is
modelled as a map from position to optional entry. -/
structure CircBuf (α : Type) where
  buf : Nat → Option α
  idx : Nat
  count : Nat

/-- Initial circular buffer: all holes, index 0, count 0. -/
def circInit : CircBuf α := ⟨fun _ => none, 0, 0⟩

/-- The circular implementation's record step:
`recent[recentIndex] = entry; recentIndex = (recentIndex + 1) % RECENT_SIZE;
if (recentCount < RECENT_SIZE) recentCount += 1`. -/
def circPush (c : CircBuf α) (r : α) : CircBuf α :=
  { buf := fun p => if p = c.idx then some r else c.buf p,
    idx := (c.idx + 1) % RECENT_SIZE,
    count := if c.count < RECENT_SIZE then c.count + 1 else c.count }

/-- The circular implementation's snapshot read-out:
`count = min(recentCount, RECENT_SIZE); for i < min(20, count):
idx = (recentIndex - 1 - i + RECENT_SIZE) % RECENT_SIZE; if (recent[idx])
push`.  The JS index arithmetic is over integers but its value is
non-negative (`recentIndex + RECENT_SIZE - 1 - i` with `i < 20`), so the
Nat rendering below computes the same number. -/
def circRecentSnapshot (c : CircBuf α) : List α :=
  (List.range (min 20 (min c.count RECENT_SIZE))).filterMap
    (fun i => c.buf ((c.idx + RECENT_SIZE - 1 - i) % RECENT_SIZE))

/-- Coupling invariant between the array implementation's recent list and
the circular buffer: same count (≤ capacity), valid write index, and the
buffer positions `idx - count + j` (mod capacity) hold the list entries in
order, oldest first. -/
def Coupled {α : Type} (recent : List α) (c : CircBuf α) : Prop :=
  recent.length = c.count ∧ c.count ≤ RECENT_SIZE ∧ c.idx < RECENT_SIZE ∧
  ∀ j, j < c.count →
    c.buf ((c.idx + RECENT_SIZE - c.count + j) % RECENT_SIZE) = recent[j]?

/-! ## Metrics: per-route statistics and snapshot -/

/-- Mutable per-route statistics: `{ count, totalMs, statuses }`. -/
structure RouteStat where
  count : Nat
  totalMs : ℚ
  statuses : List (Nat × Nat)
deriving DecidableEq, Repr

/-- A route entry of the `/api/_stats` response:
`{ route, count, avgMs, statuses }`. -/
structure RouteEntry where
  route : String
  count : Nat
  avgMs : ℚ
  statuses : List (Nat × Nat)
deriving DecidableEq, Repr

/-- `+x.toFixed(1)`: round to one decimal place, ties toward the larger
value (ECMAScript toFixed picks the larger candidate on a tie). -/
def round1 (q : ℚ) : ℚ := ((Rat.floor (q * 10 + 1 / 2) : ℤ) : ℚ) / 10

/-- One mapped entry of the `byRoute` read-out:
`{ route, count: v.count, avgMs: v.count ? +(v.totalMs / v.count).toFixed(1) : 0,
statuses: v.statuses }`. -/
def mkRouteEntry (kv : String × RouteStat) : RouteEntry :=
  ⟨kv.1, kv.2.count,
   if kv.2.count ≠ 0 then round1 (kv.2.totalMs / (kv.2.count : ℚ)) else 0,
   kv.2.statuses⟩

/-- The ordering used by `sort((a, b) => b.count - a.count)`: `a` may come
before `b` exactly when the comparator is ≤ 0, i.e. `b.count ≤ a.count`. -/
def routeGE (a b : RouteEntry) : Prop := b.count ≤ a.count

instance : DecidableRel routeGE := fun a b => Nat.decLe b.count a.count

instance : IsTotal RouteEntry routeGE := ⟨fun a b => le_total b.count a.count⟩

instance : IsTrans RouteEntry routeGE := ⟨fun _ _ _ hab hbc => le_trans hbc hab⟩

/-- The `routes` field of the `/api/_stats` response:
`Object.entries(byRoute).map(...).sort((a, b) => b.count - a.count)`.
ECMAScript specifies `Array.prototype.sort` abstractly: the result is a
stable permutation sorted w.r.t. the comparator; the stable insertion sort
realizes exactly that contract (ties keep insertion order). -/
def snapshotRoutes (byRoute : List (String × RouteStat)) : List RouteEntry :=
  (byRoute.map mkRouteEntry).insertionSort routeGE

/-- Bump a status-code counter in a histogram:
`statuses[code] = (statuses[code] || 0) + 1`. -/
def bumpStatus (st : List (Nat × Nat)) (code : Nat) : List (Nat × Nat) :=
  match st.find? (fun kv => kv.1 == code) with
  | none => st ++ [(code, 1)]
  | some _ => st.map (fun kv => if kv.1 == code then (kv.1, kv.2 + 1) else kv)

/-- Update (or lazily create) the `RouteStat` for one completed request. -/
def recordRoute (byRoute : List (String × RouteStat)) (key : String)
    (status : Nat) (ms : ℚ) : List (String × RouteStat) :=
  match byRoute.find? (fun kv => kv.1 == key) with
  | none => byRoute ++ [(key, ⟨1, ms, bumpStatus [] status⟩)]
  | some _ => byRoute.map (fun kv =>
      if kv.1 == key then (kv.1, ⟨kv.2.count + 1, kv.2.totalMs + ms, bumpStatus kv.2.statuses status⟩)
      else kv)

/-! ## Access guard (API key) -/

/-- JS `\s`: whitespace characters (ASCII whitespace plus NBSP, BOM and the
Unicode space separators; the common ones are modelled). -/
def isJsWhitespace (c : Char) : Bool :=
  c == ' ' || c == '\t' || c == '\n' || c == '\r' || c == '\x0b' ||
  c == '\x0c' || c == ' ' || c == ' ' || c == ' ' || c == '﻿'

/-- JS line terminators, which `.` does NOT match (no /s flag). -/
def isLineTerm (c : Char) : Bool :=
  c == '\n' || c == '\r' || c == ' ' || c == ' '

/-- ASCII lowercase of a list of characters (the /i flag only matters for
the ASCII letters of "ApiKey"). -/
def lowerChars (cs : List Char) : List Char := cs.map Char.toLower

/-- `auth.match(/^ApiKey\s+(.+)$/i)`, returning the capture group.  The
scheme is a case-insensitive literal; `\s+` is greedy with backtracking;
`.` matches everything except line terminators; `$` anchors at the end.
Concretely: after the 6-character scheme there must be at least one
whitespace character; with `w` the maximal whitespace run and `tail` the
rest, a non-empty `tail` matches (capture `tail`) iff it is free of line
terminators; an empty `tail` (the rest is all whitespace) matches iff the
run has length ≥ 2 and its last character is not a line terminator, the
backtracked capture being that single character. -/
def matchApiKey (auth : String) : Option String :=
  let cs := auth.toList
  if lowerChars (cs.take 6) = "apikey".toList then
    let rest := cs.drop 6
    let w := (rest.takeWhile isJsWhitespace).length
    let tail := rest.drop w
    if w = 0 then none
    else if tail ≠ [] then
      if tail.all (fun c => !isLineTerm c) then some (String.mk tail) else none
    else
      match rest.getLast? with
      | some c => if 2 ≤ w ∧ ¬isLineTerm c then some (String.mk [c]) else none
      | none => none
  else none

/-- The key the guard works with:
`provided = hdr || (m ? m[1] : "")` where `hdr = headers["x-api-key"] || ""`
and `m` is the Authorization-header match. -/
def providedKey (xApiKey authorization : Option String) : String :=
  let hdr := xApiKey.getD ""
  if hdr ≠ "" then hdr else (matchApiKey (authorization.getD "")).getD ""

/-- `apiKeyRequired`: `none` means the middleware calls `next()` (success);
`some (status, msg)` is the JSON error response. -/
def apiKeyRequired (xApiKey authorization : Option String) (secret : String) :
    Option (Nat × String) :=
  let provided := providedKey xApiKey authorization
  if provided = "" then some (401, "missing API key")
  else if provided ≠ secret then some (401, "invalid API key")
  else none

/-! ## Helper lemmas -/

theorem updateFirstUser_find (id : String) (f : User → User)
    (hf : ∀ x, (f x).id = x.id) (l : List User) :
    (updateFirstUser id f l).find? (fun u => u.id == id)
      = (l.find? (fun u => u.id == id)).map f := by
  induction l with
  | nil => simp [updateFirstUser]
  | cons u rest ih =>
    by_cases h : (u.id == id) = true
    · simp [updateFirstUser, h, List.find?_cons, hf]
    · simp [updateFirstUser, h, List.find?_cons, ih]

theorem updateFirstUser_mem (id : String) (f : User → User) (l : List User)
    (v : User) (hv : v ∈ l) (hne : ¬((v.id == id) = true)) :
    v ∈ updateFirstUser id f l := by
  induction l with
  | nil => cases hv
  | cons u rest ih =>
    rcases List.mem_cons.mp hv with rfl | h
    · simp [updateFirstUser, hne]
    · by_cases hu : (u.id == id) = true
      · simp only [updateFirstUser, hu, if_pos]
        exact List.mem_cons_of_mem _ h
      · simp only [updateFirstUser, hu, if_neg, Bool.false_eq_true,
          not_false_eq_true]
        exact List.mem_cons_of_mem _ (ih h)

/-! ## C6 and C7 -/

/-- C6: `updateUser` sets exactly the fields present in the payload and
leaves absent fields unchanged; a field present as the explicit empty
string is applied, even though `createUser` rejects empty name or email. -/
theorem C6_updateUser_field_presence (s : Store) (id : String)
    (name email : Option String) (u : User)
    (hu : s.users.find? (fun x => x.id == id) = some u) :
    (updateUser s id name email).1
        = .ok 200 ⟨u.id, name.getD u.name, email.getD u.email⟩
    ∧ ((updateUser s id name email).2.users.find? (fun x => x.id == id))
        = some ⟨u.id, name.getD u.name, email.getD u.email⟩
    ∧ (∀ v ∈ s.users, ¬((v.id == id) = true) →
        v ∈ (updateUser s id name email).2.users)
    ∧ (updateUser s id name email).2.todos = s.todos
    ∧ (updateUser s id name email).2.nextId = s.nextId
    ∧ (∀ s2 em, createUser s2 (some "") em
        = (.err 400 "name and email are required", s2))
    ∧ (∀ s2 nm, createUser s2 nm (some "")
        = (.err 400 "name and email are required", s2)) := by
  refine ⟨?_, ?_, ?_, ?_, ?_, ?_, ?_⟩
  · simp [updateUser, hu]
  · simp only [updateUser, hu]
    rw [updateFirstUser_find id
      (fun v => { v with name := name.getD v.name, email := email.getD v.email })
      (fun x => rfl), hu]
    rfl
  · intro v hv hne
    simp only [updateUser, hu]
    exact updateFirstUser_mem id _ s.users v hv hne
  · simp [updateUser, hu]
  · simp [updateUser, hu]
  · intro s2 em; simp [createUser, strFalsy]
  · intro s2 nm; simp [createUser, strFalsy]

/-- Witness for C6 at a concrete input: updating Alice with an explicit
empty name applies the empty string and keeps the email. -/
theorem C6_witness :
    (updateUser seedStore "1" (some "") none).1
      = .ok 200 ⟨"1", "", "alice@example.com"⟩ :=
  (C6_updateUser_field_presence seedStore "1" (some "") none
      ⟨"1", "Alice", "alice@example.com"⟩ (by decide)).1

/-- C7: the guard takes the provided key from X-API-Key if non-empty, else
from an `Authorization: ApiKey <token>` match, else empty; it fails
"missing API key" exactly when no key is obtained, "invalid API key"
exactly when the obtained key differs from the secret, succeeds otherwise. -/
theorem C7_apiKeyRequired_cases (x a : Option String) (secret : String) :
    (apiKeyRequired x a secret = some (401, "missing API key")
        ↔ providedKey x a = "")
    ∧ (apiKeyRequired x a secret = some (401, "invalid API key")
        ↔ providedKey x a ≠ "" ∧ providedKey x a ≠ secret)
    ∧ (apiKeyRequired x a secret = none
        ↔ providedKey x a ≠ "" ∧ providedKey x a = secret)
    ∧ (x.getD "" ≠ "" → providedKey x a = x.getD "")
    ∧ (x.getD "" = "" → providedKey x a = (matchApiKey (a.getD "")).getD "") := by
  refine ⟨?_, ?_, ?_, ?_, ?_⟩
  · unfold apiKeyRequired
    by_cases h : providedKey x a = ""
    · simp [h]
    · by_cases h2 : providedKey x a = secret <;> simp [h, h2]
  · unfold apiKeyRequired
    by_cases h : providedKey x a = ""
    · simp [h]
    · by_cases h2 : providedKey x a = secret <;> simp [h, h2]
  · unfold apiKeyRequired
    by_cases h : providedKey x a = ""
    · simp [h]
    · by_cases h2 : providedKey x a = secret <;> simp [h, h2]
  · intro h; simp [providedKey, h]
  · intro h; simp [providedKey, h]

/-- Witness for C7 at a concrete input: a wrong X-API-Key yields 401
"invalid API key". -/
theorem C7_witness :
    apiKeyRequired (some "wrong") none "dev-api-key-change-me"
      = some (401, "invalid API key") :=
  (C7_apiKeyRequired_cases (some "wrong") none "dev-api-key-change-me").2.1.mpr
    (by decide)

/-! ## C2 -/

/-- C2 counterexample: PATCH /api/todos/:id with an invalid userId together
with a title change returns 400 "invalid userId" but does NOT leave the
Todo unmodified — the title mutation has already been applied in place and
persists in the store. -/
theorem C2_counterexample :
    (updateTodo seedStore "3" (some "HACKED") none (some "999")).1
        = .err 400 "invalid userId"
    ∧ (updateTodo seedStore "3" (some "HACKED") none (some "999")).2.todos.find?
        (fun t => t.id == "3") = some ⟨"3", "1", "HACKED", false⟩
    ∧ (updateTodo seedStore "3" (some "HACKED") none (some "999")).2
        ≠ seedStore := by
  decide

/-- C2 (amended): `updateTodo` with a userId not matching any User fails
400 "invalid userId" and leaves the Todo's `userId` (and id) unchanged, but
`title` and `completed` fields provided in the same payload have already
been applied by the time of the failure. -/
theorem C2_updateTodo_invalid_userId (s : Store) (id : String)
    (title : Option String) (completed : Option JsVal) (uid : String) (t : Todo)
    (ht : s.todos.find? (fun x => x.id == id) = some t)
    (hu : (s.users.find? (fun u => u.id == uid)).isNone = true) :
    ∃ t2 : Todo,
      updateTodo s id title completed (some uid)
        = (.err 400 "invalid userId",
           { s with todos := updateFirstTodo id t2 s.todos })
      ∧ t2.userId = t.userId
      ∧ t2.id = t.id
      ∧ t2.title = title.getD t.title
      ∧ t2.completed
          = (match completed with | none => t.completed | some v => jsTruthy v) := by
  refine ⟨{ t with
            title := title.getD t.title,
            completed := (match completed with
                          | none => t.completed
                          | some v => jsTruthy v) },
          ?_, rfl, rfl, rfl, rfl⟩
  simp [updateTodo, ht, hu]

/-- Witness for C2's amended theorem at a concrete input. -/
theorem C2_amended_witness :
    ∃ t2 : Todo,
      updateTodo seedStore "3" (some "HACKED") none (some "999")
        = (.err 400 "invalid userId",
           { seedStore with todos := updateFirstTodo "3" t2 seedStore.todos })
      ∧ t2.userId = "1" ∧ t2.id = "3" ∧ t2.title = "HACKED"
      ∧ t2.completed = false :=
  C2_updateTodo_invalid_userId seedStore "3" (some "HACKED") none "999"
    ⟨"3", "1", "Buy coffee", false⟩ (by decide) (by decide)

/-! ## C8 -/

/-- C8 counterexample: the empty string is a userId matching no existing
User; `createTodo` with it (and a non-empty title) fails with
"userId and title are required" (the `!userId` falsy check), NOT with
"invalid userId" as the claim states. -/
theorem C8_counterexample :
    (createTodo seedStore (some "") (some "x") none).1
        = .err 400 "userId and title are required"
    ∧ (createTodo seedStore (some "") (some "x") none).1
        ≠ .err 400 "invalid userId"
    ∧ (seedStore.users.find? (fun u => u.id == "")).isNone = true
    ∧ (createTodo seedStore (some "") (some "x") none).2 = seedStore := by
  decide

/-- C8 (amended): `createTodo` with a NON-EMPTY userId matching no existing
User (and a non-empty title) fails 400 "invalid userId" with the store
(hence the Todos collection) unchanged; a missing (or empty) userId or
title fails 400 "userId and title are required". -/
theorem C8_createTodo_invalid_userId (s : Store) (uid title : String)
    (completed : Option JsVal) (huid : uid ≠ "") (htitle : title ≠ "")
    (hu : (s.users.find? (fun u => u.id == uid)).isNone = true) :
    createTodo s (some uid) (some title) completed
        = (.err 400 "invalid userId", s)
    ∧ (∀ s2 t2 c2, createTodo s2 none t2 c2
        = (.err 400 "userId and title are required", s2))
    ∧ (∀ s2 u2 c2, createTodo s2 u2 none c2
        = (.err 400 "userId and title are required", s2)) := by
  refine ⟨?_, ?_, ?_⟩
  · simp [createTodo, strFalsy, huid, htitle, hu]
  · intro s2 t2 c2; simp [createTodo, strFalsy]
  · intro s2 u2 c2; simp [createTodo, strFalsy]

/-- Witness for C8's amended theorem at a concrete input. -/
theorem C8_witness :
    createTodo seedStore (some "999") (some "x") none
      = (.err 400 "invalid userId", seedStore) :=
  (C8_createTodo_invalid_userId seedStore "999" "x" none (by decide) (by decide)
    (by decide)).1

/-! ## C9 -/

/-- C9 counterexample: an empty-string userId is "provided" but the handler
applies NO filter (`if (userId)` is falsy), so the result is not the exact
userId-match filtering the claim states (which would return no todos). -/
theorem C9_counterexample :
    listTodos seedStore (some "") none
      ≠ seedStore.todos.filter (fun t => t.userId == "") := by
  decide

/-- C9 (amended): `listTodos` filters by exact userId match when a
NON-EMPTY userId is provided, and by exact completed match when completed
is provided as "true" or "false", preserving insertion order; in
particular, for todos with completed {true, false, true} in insertion
order, filtering by completed=true returns exactly the first and third. -/
theorem C9_listTodos_filters (s : Store) (uid : String) :
    (uid ≠ "" → listTodos s (some uid) none
        = s.todos.filter (fun t => t.userId == uid))
    ∧ listTodos s none (some "true")
        = s.todos.filter (fun t => t.completed == true)
    ∧ listTodos s none (some "false")
        = s.todos.filter (fun t => t.completed == false)
    ∧ (uid ≠ "" → listTodos s (some uid) (some "true")
        = (s.todos.filter (fun t => t.userId == uid)).filter
            (fun t => t.completed == true))
    ∧ listTodos s none none = s.todos
    ∧ (∀ a b c : Todo, a.completed = true → b.completed = false →
        c.completed = true → s.todos = [a, b, c] →
        listTodos s none (some "true") = [a, c]) := by
  refine ⟨?_, ?_, ?_, ?_, ?_, ?_⟩
  · intro h; simp [listTodos, strFalsy, h]
  · simp [listTodos, strFalsy]
  · simp [listTodos, strFalsy]
  · intro h; simp [listTodos, strFalsy, h]
  · simp [listTodos, strFalsy]
  · intro a b c ha hb hc hs
    simp [listTodos, strFalsy, hs, ha, hb, hc]

/-- Witness for C9's amended theorem at a concrete input. -/
theorem C9_witness :
    listTodos seedStore (some "2") none
      = seedStore.todos.filter (fun t => t.userId == "2") :=
  (C9_listTodos_filters seedStore "2").1 (by decide)

/-! ## C10 -/

/-- C10: `createTodo` and `updateTodo` coerce any provided `completed`
value with `!!` — the stored field is always the strict boolean truthiness
of the payload value (truthy values store `true`, falsy values `false`). -/
theorem C10_completed_coercion (s : Store) (uid title : String) (v : JsVal)
    (t : Todo) (id : String) (huid : uid ≠ "") (htitle : title ≠ "")
    (hu : (s.users.find? (fun u => u.id == uid)).isSome = true)
    (ht : s.todos.find? (fun x => x.id == id) = some t) :
    (createTodo s (some uid) (some title) (some v)
        = (.ok 201 ⟨makeId s.nextId, uid, title, jsTruthy v⟩,
           { s with nextId := s.nextId + 1,
                    todos := s.todos ++ [⟨makeId s.nextId, uid, title, jsTruthy v⟩] }))
    ∧ (updateTodo s id none (some v) none
        = (.ok 200 { t with completed := jsTruthy v },
           { s with todos := (updateFirstTodo id
                      { t with completed := jsTruthy v } s.todos) }))
    ∧ (jsTruthy (.bool true) = true ∧ jsTruthy (.bool false) = false
       ∧ jsTruthy (.num 0) = false ∧ jsTruthy (.num 1) = true
       ∧ jsTruthy (.str "") = false ∧ jsTruthy (.str "yes") = true
       ∧ jsTruthy .null = false ∧ jsTruthy .obj = true) := by
  refine ⟨?_, ?_, ?_⟩
  · obtain ⟨u, hfind⟩ := Option.isSome_iff_exists.mp hu
    simp [createTodo, strFalsy, huid, htitle, hfind]
  · simp [updateTodo, ht]
  · decide

/-- Witness for C10 at a concrete input: a truthy number 5 is stored as
`completed = true`. -/
theorem C10_witness :
    createTodo seedStore (some "1") (some "x") (some (JsVal.num 5))
      = (.ok 201 ⟨"6", "1", "x", true⟩,
         { seedStore with
           nextId := 7,
           todos := seedStore.todos ++ [⟨"6", "1", "x", true⟩] }) := by
  rw [(C10_completed_coercion seedStore "1" "x" (JsVal.num 5)
      ⟨"3", "1", "Buy coffee", false⟩ "3" (by decide) (by decide) (by decide)
      (by decide)).1]
  decide

/-! ## C4 -/

/-- C4: the `/api/_stats` routes sequence is sorted by count descending,
and each entry's avgMs is that route stat's totalMs / count rounded to one
decimal place. -/
theorem C4_snapshot_routes (byRoute : List (String × RouteStat)) :
    (snapshotRoutes byRoute).Sorted routeGE
    ∧ ∀ e ∈ snapshotRoutes byRoute, ∃ kv ∈ byRoute,
        e.route = kv.1 ∧ e.count = kv.2.count ∧ e.statuses = kv.2.statuses
        ∧ (kv.2.count ≠ 0 →
            e.avgMs = round1 (kv.2.totalMs / (kv.2.count : ℚ))) := by
  constructor
  · exact List.sorted_insertionSort routeGE (byRoute.map mkRouteEntry)
  · intro e he
    have hmem : e ∈ byRoute.map mkRouteEntry :=
      (List.perm_insertionSort routeGE (byRoute.map mkRouteEntry)).mem_iff.mp he
    obtain ⟨kv, hkv, rfl⟩ := List.mem_map.mp hmem
    refine ⟨kv, hkv, rfl, rfl, rfl, ?_⟩
    intro hc
    simp [mkRouteEntry, hc]

/-- Witness for C4 at a concrete metrics state with two routes (the
higher-count route sorts first and satisfies the per-entry properties). -/
theorem C4_witness :
    ∃ kv ∈ [("GET /api/users", (⟨2, 3, [(200, 2)]⟩ : RouteStat)),
            ("POST /api/users", (⟨5, 10, [(201, 5)]⟩ : RouteStat))],
      (mkRouteEntry ("POST /api/users", ⟨5, 10, [(201, 5)]⟩)).route = kv.1
      ∧ (mkRouteEntry ("POST /api/users", ⟨5, 10, [(201, 5)]⟩)).count = kv.2.count
      ∧ (mkRouteEntry ("POST /api/users", ⟨5, 10, [(201, 5)]⟩)).statuses
          = kv.2.statuses
      ∧ (kv.2.count ≠ 0 →
          (mkRouteEntry ("POST /api/users", ⟨5, 10, [(201, 5)]⟩)).avgMs
            = round1 (kv.2.totalMs / (kv.2.count : ℚ))) :=
  (C4_snapshot_routes
      [("GET /api/users", ⟨2, 3, [(200, 2)]⟩),
       ("POST /api/users", ⟨5, 10, [(201, 5)]⟩)]).2
    (mkRouteEntry ("POST /api/users", ⟨5, 10, [(201, 5)]⟩))
    (by simp [snapshotRoutes, List.insertionSort, List.orderedInsert, routeGE,
          mkRouteEntry])

/-! ## C1 helper lemmas -/

theorem updateFirstTodo_mem (id : String) (t2 : Todo) (l : List Todo)
    (x : Todo) (hx : x ∈ updateFirstTodo id t2 l) : x = t2 ∨ x ∈ l := by
  induction l with
  | nil => cases hx
  | cons t rest ih =>
    by_cases h : (t.id == id) = true
    · simp only [updateFirstTodo, h, if_pos] at hx
      rcases List.mem_cons.mp hx with rfl | h2
      · exact Or.inl rfl
      · exact Or.inr (List.mem_cons_of_mem _ h2)
    · simp only [updateFirstTodo, h, Bool.false_eq_true, if_false] at hx
      rcases List.mem_cons.mp hx with rfl | h2
      · exact Or.inr (List.mem_cons_self _ _)
      · rcases ih h2 with h3 | h3
        · exact Or.inl h3
        · exact Or.inr (List.mem_cons_of_mem _ h3)

theorem updateFirstUser_exists_id (id : String) (f : User → User)
    (hf : ∀ x, (f x).id = x.id) (l : List User) (v : User) (hv : v ∈ l) :
    ∃ w ∈ updateFirstUser id f l, w.id = v.id := by
  induction l with
  | nil => cases hv
  | cons u rest ih =>
    by_cases h : (u.id == id) = true
    · rcases List.mem_cons.mp hv with rfl | h2
      · refine ⟨f v, ?_, hf v⟩
        simp [updateFirstUser, h]
      · refine ⟨v, ?_, rfl⟩
        simp only [updateFirstUser, h, if_pos]
        exact List.mem_cons_of_mem _ h2
    · rcases List.mem_cons.mp hv with rfl | h2
      · refine ⟨v, ?_, rfl⟩
        simp only [updateFirstUser, h, Bool.false_eq_true, if_false]
        exact List.mem_cons_self _ _
      · obtain ⟨w, hw, hwid⟩ := ih h2
        refine ⟨w, ?_, hwid⟩
        simp only [updateFirstUser, h, Bool.false_eq_true, if_false]
        exact List.mem_cons_of_mem _ hw

theorem refIntegrity_createUser (s : Store) (n e : Option String)
    (h : refIntegrity s) : refIntegrity (createUser s n e).2 := by
  unfold createUser
  split
  · exact h
  · intro t ht
    obtain ⟨u, hu, hid⟩ := h t ht
    exact ⟨u, List.mem_append_left _ hu, hid⟩

theorem refIntegrity_updateUser (s : Store) (id : String) (n e : Option String)
    (h : refIntegrity s) : refIntegrity (updateUser s id n e).2 := by
  unfold updateUser
  cases hf : s.users.find? (fun u => u.id == id) with
  | none => exact h
  | some u =>
    intro t ht
    obtain ⟨v, hv, hid⟩ := h t ht
    obtain ⟨w, hw, hwid⟩ := updateFirstUser_exists_id id
      (fun v => { v with name := n.getD v.name, email := e.getD v.email })
      (fun _ => rfl) s.users v hv
    exact ⟨w, hw, hwid.trans hid⟩

theorem refIntegrity_deleteUser (s : Store) (id : String)
    (h : refIntegrity s) : refIntegrity (deleteUser s id).2 := by
  unfold deleteUser
  cases hf : s.users.find? (fun u => u.id == id) with
  | none => exact h
  | some removed =>
    have hrid : removed.id = id := by
      have hbeq := List.find?_some hf
      simpa using hbeq
    intro t ht
    have ht2 := List.mem_filter.mp ht
    have hne : t.userId ≠ removed.id := bne_iff_ne.mp ht2.2
    obtain ⟨u, hu, hid⟩ := h t ht2.1
    have hune : ¬((u.id == id) = true) := by
      intro hbeq
      have h1 : u.id = id := by simpa using hbeq
      exact hne (by rw [← hid, h1, hrid])
    have hmem : u ∈ List.eraseP (fun x : User => x.id == id) s.users := by
      rw [List.mem_eraseP_of_neg]
      · exact hu
      · exact hune
    exact ⟨u, hmem, hid⟩

theorem refIntegrity_createTodo (s : Store) (uid title : Option String)
    (c : Option JsVal) (h : refIntegrity s) :
    refIntegrity (createTodo s uid title c).2 := by
  unfold createTodo
  split
  · exact h
  · split
    · exact h
    · rename_i hfind
      rw [Bool.not_eq_true, Option.isNone_eq_false_iff,
        Option.isSome_iff_exists] at hfind
      obtain ⟨u, hu⟩ := hfind
      intro t ht
      rcases List.mem_append.mp ht with h2 | h2
      · obtain ⟨v, hv, hid⟩ := h t h2
        exact ⟨v, hv, hid⟩
      · have heq : t = ⟨makeId s.nextId, uid.getD "", title.getD "",
            jsTruthy (c.getD (.bool false))⟩ := List.mem_singleton.mp h2
        subst heq
        refine ⟨u, List.mem_of_find?_eq_some hu, ?_⟩
        have hbeq := List.find?_some hu
        simpa using hbeq

theorem refIntegrity_updateTodo (s : Store) (id : String)
    (title : Option String) (c : Option JsVal) (uid : Option String)
    (h : refIntegrity s) : refIntegrity (updateTodo s id title c uid).2 := by
  cases hf : s.todos.find? (fun t => t.id == id) with
  | none =>
    unfold updateTodo
    rw [hf]
    exact h
  | some t0 =>
    have ht0 : t0 ∈ s.todos := List.mem_of_find?_eq_some hf
    cases uid with
    | none =>
      unfold updateTodo
      rw [hf]
      intro t ht
      rcases updateFirstTodo_mem id _ s.todos t ht with rfl | h2
      · exact h t0 ht0
      · exact h t h2
    | some u =>
      by_cases hn : (s.users.find? (fun x => x.id == u)).isNone = true
      · simp only [updateTodo, hf, hn, if_true]
        intro t ht
        rcases updateFirstTodo_mem id _ s.todos t ht with rfl | h2
        · exact h t0 ht0
        · exact h t h2
      · have hn2 : (s.users.find? (fun x => x.id == u)).isNone = false := by
          rwa [Bool.not_eq_true] at hn
        have hex := Option.isSome_iff_exists.mp
          ((Option.isNone_eq_false_iff _).mp hn2)
        obtain ⟨w, hw⟩ := hex
        simp only [updateTodo, hf, hn2, Bool.false_eq_true, if_false]
        intro t ht
        rcases updateFirstTodo_mem id _ s.todos t ht with rfl | h2
        · refine ⟨w, List.mem_of_find?_eq_some hw, ?_⟩
          have hbeq := List.find?_some hw
          simpa using hbeq
        · exact h t h2

theorem refIntegrity_deleteTodo (s : Store) (id : String)
    (h : refIntegrity s) : refIntegrity (deleteTodo s id).2 := by
  unfold deleteTodo
  cases hf : s.todos.find? (fun t => t.id == id) with
  | none => exact h
  | some t0 =>
    intro t ht
    exact h t (List.mem_of_mem_eraseP ht)

theorem refIntegrity_applyOp (s : Store) (op : StoreOp)
    (h : refIntegrity s) : refIntegrity (applyOp s op) := by
  cases op with
  | createUser n e => exact refIntegrity_createUser s n e h
  | updateUser i n e => exact refIntegrity_updateUser s i n e h
  | deleteUser i => exact refIntegrity_deleteUser s i h
  | createTodo u t c => exact refIntegrity_createTodo s u t c h
  | updateTodo i t c u => exact refIntegrity_updateTodo s i t c u h
  | deleteTodo i => exact refIntegrity_deleteTodo s i h

theorem refIntegrity_runOps (s : Store) (ops : List StoreOp)
    (h : refIntegrity s) : refIntegrity (runOps s ops) := by
  induction ops generalizing s with
  | nil => exact h
  | cons op rest ih => exact ih (applyOp s op) (refIntegrity_applyOp s op h)

theorem deleteUser_cascade (s : Store) (id : String) (h : refIntegrity s)
    (t : Todo) (ht : t ∈ (deleteUser s id).2.todos) : t.userId ≠ id := by
  unfold deleteUser at ht
  cases hf : s.users.find? (fun u => u.id == id) with
  | none =>
    rw [hf] at ht
    intro hcontra
    obtain ⟨u, hu, hid⟩ := h t ht
    exact (List.find?_eq_none.mp hf u hu) (beq_iff_eq.mpr (hid.trans hcontra))
  | some removed =>
    rw [hf] at ht
    have hrid : removed.id = id := by
      have hbeq := List.find?_some hf
      simpa using hbeq
    have hbne := (List.mem_filter.mp ht).2
    rw [← hrid]
    exact bne_iff_ne.mp hbne

/-! ## C1 -/

/-- C1: after any sequence of store operations from the seed data, every
Todo in the store references an existing User, and deleting a User removes
every Todo whose userId equals it in the same operation. -/
theorem C1_referential_integrity (ops : List StoreOp) :
    refIntegrity (runOps seedStore ops)
    ∧ ∀ id t, t ∈ (deleteUser (runOps seedStore ops) id).2.todos →
        t.userId ≠ id := by
  have hseed : refIntegrity seedStore := by decide
  have hrun := refIntegrity_runOps seedStore ops hseed
  exact ⟨hrun, fun id t ht => deleteUser_cascade _ id hrun t ht⟩

/-- Witness for C1 at a concrete input: after deleting Alice (id "1") from
the seed store, Bob's remaining todo does not reference her. -/
theorem C1_witness :
    (⟨"5", "2", "Prepare client proposal", false⟩ : Todo).userId ≠ "1" :=
  (C1_referential_integrity []).2 "1"
    ⟨"5", "2", "Prepare client proposal", false⟩ (by decide)

/-! ## Recent-buffer lemmas (C3/C5) -/

theorem pushRecent_of_lt {α : Type} (r : List α) (x : α)
    (h : r.length < RECENT_SIZE) : pushRecent r x = r ++ [x] := by
  have h100 : r.length < 100 := h
  have hc : ¬(RECENT_SIZE < (r ++ [x]).length) := by
    rw [List.length_append, List.length_singleton]
    show ¬(100 < r.length + 1)
    omega
  simp only [pushRecent]
  rw [if_neg hc]

theorem pushRecent_of_eq {α : Type} (r : List α) (x : α)
    (h : r.length = RECENT_SIZE) : pushRecent r x = (r ++ [x]).tail := by
  have h100 : r.length = 100 := h
  have hc : RECENT_SIZE < (r ++ [x]).length := by
    rw [List.length_append, List.length_singleton]
    show 100 < r.length + 1
    omega
  simp only [pushRecent]
  rw [if_pos hc]

theorem lastN_of_le {α : Type} (l : List α) (k : Nat) (h : l.length ≤ k) :
    lastN k l = l := by
  unfold lastN
  rw [Nat.sub_eq_zero_of_le h, List.drop_zero]

theorem lastN_lastN {α : Type} (j k : Nat) (l : List α) (h : j ≤ k) :
    lastN j (lastN k l) = lastN j l := by
  unfold lastN
  rw [List.length_drop, List.drop_drop]
  congr 1
  omega

theorem lastN_append_absorb {α : Type} (k : Nat) (m l : List α) :
    lastN k (lastN k m ++ l) = lastN k (m ++ l) := by
  simp only [lastN, List.length_append, List.length_drop,
    List.drop_append_eq_append_drop, List.drop_drop]
  congr 1
  · congr 1
    omega
  · congr 1
    omega

theorem foldl_pushRecent_eq {α : Type} (l : List α) :
    ∀ (r : List α), r.length ≤ 100 →
      l.foldl pushRecent r = lastN 100 (r ++ l) := by
  induction l with
  | nil =>
    intro r h
    rw [List.foldl_nil, List.append_nil]
    exact (lastN_of_le r 100 h).symm
  | cons x l ih =>
    intro r h
    rw [List.foldl_cons]
    by_cases hc : r.length < 100
    · rw [show pushRecent r x = r ++ [x] from pushRecent_of_lt r x hc]
      rw [ih (r ++ [x])
        (by rw [List.length_append, List.length_singleton]; omega)]
      rw [List.append_assoc, List.singleton_append]
    · have he : r.length = 100 := by omega
      rw [show pushRecent r x = (r ++ [x]).tail from pushRecent_of_eq r x he]
      rw [ih ((r ++ [x]).tail)
        (by rw [List.length_tail, List.length_append, List.length_singleton]
            omega)]
      have ht : (r ++ [x]).tail = lastN 100 (r ++ [x]) := by
        rw [← List.drop_one]
        unfold lastN
        congr 1
        rw [List.length_append, List.length_singleton]
        omega
      rw [ht, lastN_append_absorb, List.append_assoc, List.singleton_append]

theorem filterMap_eq_map_of_forall_some {β γ : Type} (l : List β)
    (f : β → Option γ) (g : β → γ) (h : ∀ x ∈ l, f x = some (g x)) :
    l.filterMap f = l.map g := by
  induction l with
  | nil => rfl
  | cons a l ih =>
    have ha := h a (List.mem_cons_self a l)
    have hrest := ih (fun x hx => h x (List.mem_cons_of_mem a hx))
    simp [List.filterMap_cons, ha, hrest]

theorem coupled_init {α : Type} : Coupled ([] : List α) circInit := by
  refine ⟨rfl, ?_, ?_, ?_⟩
  · show (0 : Nat) ≤ RECENT_SIZE
    decide
  · show (0 : Nat) < RECENT_SIZE
    decide
  · intro j hj
    exact absurd hj (by simp [circInit])

theorem coupled_push {α : Type} (r : List α) (c : CircBuf α) (x : α)
    (h : Coupled r c) : Coupled (pushRecent r x) (circPush c x) := by
  obtain ⟨hlen, hle, hidx, hbuf⟩ := h
  have hle100 : c.count ≤ 100 := hle
  have hidx100 : c.idx < 100 := hidx
  have hbufs : ∀ p, (circPush c x).buf p
      = if p = c.idx then some x else c.buf p := fun _ => rfl
  have hidxs : (circPush c x).idx = (c.idx + 1) % RECENT_SIZE := rfl
  by_cases hfull : c.count < 100
  · have hpush : pushRecent r x = r ++ [x] := by
      apply pushRecent_of_lt
      show r.length < 100
      omega
    have hcount : (circPush c x).count = c.count + 1 := by
      show (if c.count < RECENT_SIZE then c.count + 1 else c.count)
          = c.count + 1
      rw [if_pos]
      show c.count < 100
      exact hfull
    refine ⟨?_, ?_, ?_, ?_⟩
    · rw [hpush, hcount, List.length_append, List.length_singleton, hlen]
    · rw [hcount]
      show c.count + 1 ≤ 100
      omega
    · rw [hidxs]
      show (c.idx + 1) % 100 < 100
      omega
    · intro j hj
      rw [hcount] at hj
      rw [hpush, hbufs, hidxs, hcount]
      by_cases hjc : j < c.count
      · have h1 : (c.idx + 1) % RECENT_SIZE + RECENT_SIZE - (c.count + 1) + j
            = (c.idx + 1) % RECENT_SIZE + (99 - c.count + j) := by
          show (c.idx + 1) % 100 + 100 - (c.count + 1) + j
              = (c.idx + 1) % 100 + (99 - c.count + j)
          omega
        rw [h1, Nat.mod_add_mod]
        have h2 : c.idx + 1 + (99 - c.count + j)
            = c.idx + RECENT_SIZE - c.count + j := by
          show _ = c.idx + 100 - c.count + j
          omega
        rw [h2]
        have hne : (c.idx + RECENT_SIZE - c.count + j) % RECENT_SIZE
            ≠ c.idx := by
          show (c.idx + 100 - c.count + j) % 100 ≠ c.idx
          omega
        rw [if_neg hne, hbuf j hjc,
          List.getElem?_append_left (by omega)]
      · have hjeq : j = c.count := by omega
        have h1 : (c.idx + 1) % RECENT_SIZE + RECENT_SIZE - (c.count + 1) + j
            = (c.idx + 1) % RECENT_SIZE + 99 := by
          show (c.idx + 1) % 100 + 100 - (c.count + 1) + j
              = (c.idx + 1) % 100 + 99
          omega
        rw [h1, Nat.mod_add_mod]
        have h2 : (c.idx + 1 + 99) % RECENT_SIZE = c.idx := by
          show (c.idx + 1 + 99) % 100 = c.idx
          omega
        rw [h2, if_pos rfl, hjeq, ← hlen, List.getElem?_concat_length]
  · have hc100 : c.count = 100 := by omega
    have hpush : pushRecent r x = (r ++ [x]).tail := by
      apply pushRecent_of_eq
      show r.length = 100
      omega
    have hcount : (circPush c x).count = c.count := by
      show (if c.count < RECENT_SIZE then c.count + 1 else c.count) = c.count
      rw [if_neg]
      show ¬c.count < 100
      omega
    refine ⟨?_, ?_, ?_, ?_⟩
    · rw [hpush, hcount, List.length_tail, List.length_append,
        List.length_singleton, hlen]
      omega
    · rw [hcount]
      exact hle
    · rw [hidxs]
      show (c.idx + 1) % 100 < 100
      omega
    · intro j hj
      rw [hcount, hc100] at hj
      rw [hpush, hbufs, hidxs, hcount, hc100]
      have h1 : (c.idx + 1) % RECENT_SIZE + RECENT_SIZE - 100 + j
          = (c.idx + 1) % RECENT_SIZE + j := by
        show (c.idx + 1) % 100 + 100 - 100 + j = (c.idx + 1) % 100 + j
        omega
      rw [h1, Nat.mod_add_mod]
      rw [← List.drop_one, List.getElem?_drop]
      by_cases hj99 : j < 99
      · have hne : (c.idx + 1 + j) % RECENT_SIZE ≠ c.idx := by
          show (c.idx + 1 + j) % 100 ≠ c.idx
          omega
        rw [if_neg hne]
        have h2 : (c.idx + 1 + j) % RECENT_SIZE
            = (c.idx + RECENT_SIZE - c.count + (j + 1)) % RECENT_SIZE := by
          show (c.idx + 1 + j) % 100 = (c.idx + 100 - c.count + (j + 1)) % 100
          congr 1
          omega
        rw [h2, hbuf (j + 1) (by omega),
          List.getElem?_append_left (by omega)]
        congr 1
        omega
      · have hjeq : j = 99 := by omega
        have h2 : (c.idx + 1 + j) % RECENT_SIZE = c.idx := by
          show (c.idx + 1 + j) % 100 = c.idx
          omega
        rw [h2, if_pos rfl]
        have h3 : 1 + j = r.length := by omega
        rw [h3, List.getElem?_concat_length]

theorem coupled_foldl {α : Type} (l : List α) :
    ∀ (r : List α) (c : CircBuf α), Coupled r c →
      Coupled (l.foldl pushRecent r) (l.foldl circPush c) := by
  induction l with
  | nil => intro r c h; exact h
  | cons x l ih =>
    intro r c h
    rw [List.foldl_cons, List.foldl_cons]
    exact ih _ _ (coupled_push r c x h)

theorem circSnapshot_coupled {α : Type} [Inhabited α] (r : List α)
    (c : CircBuf α) (h : Coupled r c) :
    circRecentSnapshot c = arrRecentSnapshot r := by
  obtain ⟨hlen, hle, hidx, hbuf⟩ := h
  have hle100 : c.count ≤ 100 := hle
  have hidx100 : c.idx < 100 := hidx
  have hlen' : r.length = c.count := hlen
  have hmin : min c.count RECENT_SIZE = c.count := min_eq_left hle
  have step1 : circRecentSnapshot c
      = (List.range (min 20 c.count)).map
          (fun i => r.getD (c.count - 1 - i) default) := by
    unfold circRecentSnapshot
    rw [hmin]
    apply filterMap_eq_map_of_forall_some
    intro i hi
    have hi2 : i < min 20 c.count := List.mem_range.mp hi
    have hiC : i < c.count := lt_of_lt_of_le hi2 (min_le_right _ _)
    have e : (c.idx + RECENT_SIZE - 1 - i) % RECENT_SIZE
        = (c.idx + RECENT_SIZE - c.count + (c.count - 1 - i)) % RECENT_SIZE := by
      show (c.idx + 100 - 1 - i) % 100
          = (c.idx + 100 - c.count + (c.count - 1 - i)) % 100
      congr 1
      omega
    rw [e, hbuf _ (by omega)]
    have hlt : c.count - 1 - i < r.length := by omega
    rw [List.getElem?_eq_getElem hlt, List.getD_eq_getElem?_getD,
      List.getElem?_eq_getElem hlt]
    rfl
  rw [step1]
  apply List.ext_getElem?
  intro n
  by_cases hn : n < min 20 c.count
  · rw [List.getElem?_map, List.getElem?_range hn, Option.map_some']
    unfold arrRecentSnapshot lastN
    have hlen20 : (r.drop (r.length - 20)).length = min 20 c.count := by
      rw [List.length_drop]
      omega
    rw [List.getElem?_reverse (by rw [hlen20]; exact hn), hlen20,
      List.getElem?_drop]
    have e2 : r.length - 20 + (min 20 c.count - 1 - n) = c.count - 1 - n := by
      omega
    rw [e2]
    have hlt2 : c.count - 1 - n < r.length := by omega
    rw [List.getElem?_eq_getElem hlt2, List.getD_eq_getElem?_getD,
      List.getElem?_eq_getElem hlt2]
    rfl
  · rw [List.getElem?_eq_none, List.getElem?_eq_none]
    · show (lastN 20 r).reverse.length ≤ n
      unfold lastN
      rw [List.length_reverse, List.length_drop]
      omega
    · rw [List.length_map, List.length_range]
      omega

/-! ## C3 -/

/-- C3: for every sequence of recorded requests, the circular-buffer
implementation and the capacity-capped array implementation yield the same
`recent` list in the stats snapshot (same entries, most recent first). -/
theorem C3_recent_refinement (l : List RecentRec) :
    circRecentSnapshot (l.foldl circPush circInit)
      = arrRecentSnapshot (l.foldl pushRecent []) :=
  circSnapshot_coupled _ _ (coupled_foldl l [] circInit coupled_init)

/-! ## C5 -/

/-- C5: after recording n requests the array store retains exactly the last
min(n, 100) records; the snapshot returns at most the 20 most recent,
most recent first (in both implementations); and the circular buffer's
count is min(n, 100). -/
theorem C5_recent_retention (l : List RecentRec) :
    l.foldl pushRecent [] = lastN 100 l
    ∧ arrRecentSnapshot (l.foldl pushRecent []) = (lastN 20 l).reverse
    ∧ circRecentSnapshot (l.foldl circPush circInit) = (lastN 20 l).reverse
    ∧ (l.foldl circPush circInit).count = min l.length 100 := by
  have h1 : l.foldl pushRecent [] = lastN 100 l := by
    have h0 := foldl_pushRecent_eq l [] (by simp)
    simpa using h0
  have hcoup := coupled_foldl l [] circInit coupled_init
  have h2 : arrRecentSnapshot (l.foldl pushRecent [])
      = (lastN 20 l).reverse := by
    rw [h1]
    unfold arrRecentSnapshot
    rw [lastN_lastN 20 100 l (by omega)]
  have h3 := circSnapshot_coupled _ _ hcoup
  have h4 : (l.foldl circPush circInit).count = min l.length 100 := by
    obtain ⟨hlen, _, _, _⟩ := hcoup
    rw [← hlen, h1]
    unfold lastN
    rw [List.length_drop]
    omega
  exact ⟨h1, h2, by rw [h3, h2], h4⟩

